import Mathlib

/-!
Verification of the wsudo privileged helper service against its specification.

The development shallowly embeds the service's data model and operations:
the protocol constants and message headers (src/include/stdo/stdo.h,
src/unnamed/part_001), the server status codes and event-status codes
(src/unnamed/part_003), the overlapped-IO state tag and buffer-growth
constants (src/unnamed/part_002), the event listener's parallel
event/handler lists (src/unnamed/part_003), and the client connection
handler's continuation step (src/unnamed/part_003).  Operations whose
bodies are not part of the available sources (only their declarations and
documentation are) are modelled from the specification; each such
definition says so in its doc comment.
-/

namespace Wsudo

/-- Pipe chunk size, from `constexpr size_t PipeBufferSize = 1024;` in
src/include/stdo/stdo.h.  `EventOverlappedIO::ChunkSize` in
src/unnamed/part_002 is a cast of this same constant. -/
def PipeBufferSize : Nat := 1024

/-- `const size_t BufferDoublingLimit = 4;` from src/unnamed/part_002. -/
def BufferDoublingLimit : Nat := 4

/-- `MsgHeaderCredential = "CRED"` from src/unnamed/part_001. -/
def MsgHeaderCredential : String := "CRED"

/-- `MsgHeaderBless = "BLES"` from src/unnamed/part_001. -/
def MsgHeaderBless : String := "BLES"

/-- Maximum concurrent server connections, `MaxPipeConnections` in
src/unnamed/part_003. -/
def MaxPipeConnections : Nat := 10

/-- Server status codes, `enum Status` in src/unnamed/part_003 lines 23-29. -/
inductive Status where
  | unset
  | ok
  | createPipeFailed
  | timedOut
  | eventFailed
deriving DecidableEq, Repr

/-- The underlying C++ integer value of each `Status` enumerator
(`StatusUnset = -1, StatusOk = 0`, then implicit increments). -/
def Status.toInt : Status → Int
  | .unset => -1
  | .ok => 0
  | .createPipeFailed => 1
  | .timedOut => 2
  | .eventFailed => 3

/-- `statusToString` from src/unnamed/part_003 lines 31-40. -/
def statusToString : Status → String
  | .unset => "status not set"
  | .ok => "ok"
  | .createPipeFailed => "pipe creation failed"
  | .timedOut => "timed out"
  | .eventFailed => "event failed"

/-- `enum class EventStatus` in src/unnamed/part_003 lines 83-87
(`Finished`, `InProgress`, `Failed`). -/
inductive EventStatus where
  | finished
  | inProgress
  | failed
deriving DecidableEq, Repr

/-- `ClientConnectionHandler::operator()(EventListener &)` from
src/unnamed/part_003 lines 196-201.  The handler holds an optional
continuation `_callback`; invoking a continuation yields the next
continuation, where a null member-function pointer converts to `none`.
The C++ body is
`if (!_callback || !(_callback = _callback(this))) return Failed;
 return InProgress;`.
`eval` abstracts the invocation `_callback(this)` of the stored
member-function pointer on the handler object. -/
def clientHandlerStep {α : Type} (eval : α → Option α) :
    Option α → EventStatus × Option α
  | none => (.failed, none)
  | some f =>
    match eval f with
    | none => (.failed, none)
    | some g => (.inProgress, some g)

/-- IO state tag, `enum class IOState` in src/unnamed/part_002 lines
140-149: `Inactive`, `Reading`, `Writing`, `Failed`. -/
inductive IOState where
  | inactive
  | reading
  | writing
  | failed
deriving DecidableEq, Repr

/-- Number of asynchronous operations outstanding in a given IO state:
`Reading` and `Writing` each denote one queued operation, `Inactive` and
`Failed` none (src/unnamed/part_002, comments on `IOState`). -/
def IOState.outstandingOps : IOState → Nat
  | .reading => 1
  | .writing => 1
  | .inactive => 0
  | .failed => 0

/-- Modelled from the spec: the body of `EventOverlappedIO::beginRead` is
not in the available sources.  Per the specification of the AsyncChannel,
only one read or one write may be outstanding at a time, and starting a new
operation while one is active is a programming error; so beginning a read
is permitted exactly when no operation is queued (`Inactive`), moving the
channel to `Reading`. -/
def beginRead : IOState → Option IOState
  | .inactive => some .reading
  | _ => none

/-- Modelled from the spec: the body of `EventOverlappedIO::beginWrite` is
not in the available sources.  Symmetric to `beginRead`: permitted exactly
from `Inactive`, moving the channel to `Writing`. -/
def beginWrite : IOState → Option IOState
  | .inactive => some .writing
  | _ => none

/-- Outcome of accumulating one inbound message. -/
inductive ReadResult where
  | accepted (totalBytes : Nat)
  | oversized
deriving DecidableEq, Repr

/-- Buffer capacity after `d` doublings from the base chunk size. -/
def readCapacity (d : Nat) : Nat := PipeBufferSize * 2 ^ d

/-- Modelled from the spec: the chunked-read completion loop of
`EventOverlappedIO` (bodies of `beginRead`/`endRead` are not in the
available sources).  The buffer starts at one chunk (`PipeBufferSize`) and
doubles whenever the incoming message does not yet fit, up to
`BufferDoublingLimit` doublings; needing to grow past the ceiling is a hard
oversized-message failure, never a truncated acceptance.  `fuel` counts the
doublings still permitted. -/
def readGrow (msgLen : Nat) : Nat → Nat → ReadResult
  | d, 0 =>
    if msgLen ≤ readCapacity d then .accepted msgLen else .oversized
  | d, fuel + 1 =>
    if msgLen ≤ readCapacity d then .accepted msgLen
    else readGrow msgLen (d + 1) fuel

/-- Modelled from the spec: reading a whole message of `msgLen` bytes,
starting from a fresh buffer of one chunk with all doublings available. -/
def readMessage (msgLen : Nat) : ReadResult :=
  readGrow msgLen 0 BufferDoublingLimit

/-- Response header kinds of the wire protocol: declared in
src/include/stdo/stdo.h as `SMsgHeaderSuccess`, `SMsgHeaderInvalidMessage`,
`SMsgHeaderInternalError`, `SMsgHeaderAccessDenied` (their literal byte
values are not in the available sources, so responses are modelled by
kind). -/
inductive ResponseKind where
  | success
  | invalidMessage
  | internalError
  | accessDenied
deriving DecidableEq, Repr

/-- Per-connection authentication state: `ClientConnectionHandler`'s
`HObject _userToken` member (src/unnamed/part_003 line 174), empty until a
successful credential logon stores an owned elevated token.  Tokens are
modelled as opaque numeric handles. -/
structure ConnState where
  userToken : Option Nat
deriving DecidableEq, Repr

/-- A parsed inbound request: a 4-byte header tag and its payload.
`cred` carries a username and password (header `MsgHeaderCredential`),
`bles` carries a caller-supplied handle (header `MsgHeaderBless`), and
`malformed` is any message whose header is neither. -/
inductive Message where
  | cred (username password : String)
  | bles (target : Nat)
  | malformed (tag : String)
deriving DecidableEq, Repr

/-- The 4-byte header tag carried by a message. -/
def Message.headerTag : Message → String
  | .cred _ _ => MsgHeaderCredential
  | .bles _ => MsgHeaderBless
  | .malformed tag => tag

/-- Environment oracles for the OS facilities the dispatcher calls:
credential validation (`LogonUser`, used by `tryToLogonUser`), the token it
produces on success, and duplication/transfer of token rights onto a target
handle (used by `bless`). -/
structure OsEnv where
  validCred : String → String → Bool
  logonToken : String → String → Nat
  transferOk : Nat → Nat → Bool

/-- Result of dispatching one message: the queued response, the connection
state afterwards, the boolean returned by `dispatchMessage` (`true` to read
another message, `false` to reset the connection, per its documentation in
src/unnamed/part_003 line 188), and the privilege transfer performed, if
any, as a (token, target) pair. -/
structure DispatchResult where
  response : ResponseKind
  state : ConnState
  readAnother : Bool
  transfer : Option (Nat × Nat)
deriving DecidableEq, Repr

/-- Modelled from the spec: the body of
`ClientConnectionHandler::dispatchMessage` (with `tryToLogonUser` and
`bless`) is not in the available sources.  Per the specification's
Dispatching state: `CRED` invokes OS credential validation — success
stores an owned elevated token for this connection and queues a success
response, failure queues access-denied and leaves the connection with no
token; `BLES` with no previously validated token queues access-denied and
performs no transfer, otherwise it transfers rights from the stored token
onto the target, queueing success or internal-error; an unrecognized header
queues invalid-message.  Authentication failure and denied bestowal are
valid protocol operations, so the connection reads another message
(`readAnother = true`); a malformed header forces a reset
(`readAnother = false`). -/
def dispatchMessage (env : OsEnv) (s : ConnState) : Message → DispatchResult
  | .cred u p =>
    if env.validCred u p then
      { response := .success
        state := { userToken := some (env.logonToken u p) }
        readAnother := true
        transfer := none }
    else
      { response := .accessDenied
        state := { userToken := none }
        readAnother := true
        transfer := none }
  | .bles target =>
    match s.userToken with
    | none =>
      { response := .accessDenied, state := s, readAnother := true
        transfer := none }
    | some tok =>
      if env.transferOk tok target then
        { response := .success, state := s, readAnother := true
          transfer := some (tok, target) }
      else
        { response := .internalError, state := s, readAnother := true
          transfer := some (tok, target) }
  | .malformed _ =>
    { response := .invalidMessage, state := s, readAnother := false
      transfer := none }

/-- Protocol phases of a `ClientConnectionHandler`, following its
continuation methods `connect`/`finishConnect`, `read`/`finishRead`,
`respond`/`finishRespond<Loop>`, `reset` (src/unnamed/part_003 lines
179-186). -/
inductive Phase where
  | connecting
  | reading
  | dispatching
  | responding (loopAfter : Bool)
  | resetting
deriving DecidableEq, Repr

/-- Modelled from the spec: the body of
`ClientConnectionHandler::finishRespond<Loop>` is not in the available
sources.  When the queued response has been fully written, the connection
either returns to `Reading` to accept another message (`Loop = true`, the
last request was a recognized protocol operation) or proceeds to `Reset`
(`Loop = false`, the request was structurally malformed). -/
def finishRespond (loopAfter : Bool) : Phase :=
  if loopAfter then .reading else .resetting

/-- The phase reached after a completed response write for a dispatched
message: responding with the loop flag chosen by `dispatchMessage`, then
`finishRespond`. -/
def phaseAfterRespond (env : OsEnv) (s : ConnState) (m : Message) : Phase :=
  finishRespond (dispatchMessage env s m).readAnother

/-- The kinds of handler registered with the event listener: the quit
signal (`SimpleEventHandler` pushed by the `EventListener` constructor),
listening pipe handlers, and client connection handlers
(src/unnamed/part_003). -/
inductive HandlerKind where
  | quit
  | listening (id : Nat)
  | connection (id : Nat)
deriving DecidableEq, Repr

/-- The OS event handle of the quit signal, fixed as handle 0 in the
model. -/
def quitEventHandle : Nat := 0

/-- `EventListener`'s state, src/unnamed/part_003 lines 204-233: a vector
of OS event handles (`_events`) and a parallel vector of handlers
(`_handlers`). -/
structure EventListener where
  events : List Nat
  handlers : List HandlerKind
deriving DecidableEq, Repr

/-- `ExitLoopIndex = 0` from src/unnamed/part_003 line 207. -/
def ExitLoopIndex : Nat := 0

/-- `EventListener::push` from src/unnamed/part_003 lines 223-228: appends
the handler's event and the handler itself to the two parallel vectors. -/
def EventListener.push (l : EventListener) (ev : Nat) (h : HandlerKind) :
    EventListener :=
  { events := l.events ++ [ev], handlers := l.handlers ++ [h] }

/-- The freshly constructed listener: the `EventListener` constructor
(src/unnamed/part_003 lines 212-221) starts with empty vectors and pushes
the quit event's `SimpleEventHandler` first, so it occupies index
`ExitLoopIndex = 0`. -/
def EventListener.init : EventListener :=
  EventListener.push { events := [], handlers := [] } quitEventHandle .quit

/-- Modelled from the spec: the body of `EventListener::remove(size_t)` is
not in the available sources.  Per the specification, removal erases one
(event, handler) pair from both parallel vectors while preserving the
index-0 reservation of the quit signal: only indices ≥ 1 are ever removed,
so the argument `i` here names the pair at index `i + 1`. -/
def EventListener.remove (l : EventListener) (i : Nat) : EventListener :=
  { events := l.events.eraseIdx (i + 1)
    handlers := l.handlers.eraseIdx (i + 1) }

/-- `quitEvent()` from src/unnamed/part_003 line 230: the event handle at
`ExitLoopIndex`. -/
def EventListener.quitEvent (l : EventListener) : Option Nat :=
  l.events.get? ExitLoopIndex

/-- The listener states reachable from construction by any sequence of
`push` and `remove` operations (the mutations performed by the event loop
between dispatch calls). -/
inductive EventListener.Reachable : EventListener → Prop where
  | init : EventListener.Reachable EventListener.init
  | push {l} (ev : Nat) (h : HandlerKind) :
      EventListener.Reachable l → EventListener.Reachable (l.push ev h)
  | remove {l} (i : Nat) :
      EventListener.Reachable l → EventListener.Reachable (l.remove i)

/-- First index at or after `start`, within `fuel` further candidates,
whose event is signaled.  Helper for `EventListener.next`. -/
def findSignaled (sig : Nat → Bool) : Nat → Nat → Option Nat
  | _, 0 => none
  | start, fuel + 1 =>
    if sig start then some start else findSignaled sig (start + 1) fuel

/-- Modelled from the spec: the body of `EventListener::next` is not in the
available sources.  It waits on all registered events with
`WaitForMultipleObjects`, which reports the signaled object of smallest
index; exactly one handler — the one at that index — is then dispatched.
`sig` tells which OS event handles are currently signaled; the result is
the index of the dispatched handler. -/
def EventListener.next (l : EventListener) (sig : Nat → Bool) : Option Nat :=
  findSignaled (fun i => sig (l.events.getD i 0)) 0 l.events.length

/-- The two escalated loop-ending errors, from src/unnamed/part_003:
`event_mutex_abandoned_error` (lines 45-65) carries the offending handler
(`std::unique_ptr<EventHandler> _handler`), and `event_wait_failed_error`
(lines 67-81) carries the OS error code (`DWORD _lastError`). -/
inductive LoopError where
  | mutexAbandoned (handler : HandlerKind)
  | waitFailed (osCode : Nat)
deriving DecidableEq, Repr

/-- One observable outcome of the multiplexer's wait: some handler index
was signaled and its step returned an `EventStatus`; a wait object at some
index was abandoned; the wait primitive itself failed with an OS error
code; or the bounded wait timed out. -/
inductive WaitOutcome where
  | signaled (i : Nat) (st : EventStatus)
  | abandoned (i : Nat)
  | waitError (osCode : Nat)
  | elapsed
deriving DecidableEq, Repr

/-- Modelled from the spec: the body of `EventListener::eventLoop` is not
in the available sources.  The loop consumes wait outcomes until it exits:
a signal of the quit handler (index `ExitLoopIndex = 0`) ends the loop
with status ok; a timeout ends it with the timed-out status; a wait-
primitive failure escalates as `waitFailed` with the OS error code; an
abandoned wait object escalates as `mutexAbandoned` carrying the offending
handler; any other handler's step either keeps it registered
(`InProgress`) or removes the (event, handler) pair (`Finished`/`Failed`)
— in every such case the loop continues.  An exhausted outcome trace is
reported as ok. -/
def runLoop (l : EventListener) : List WaitOutcome → Except LoopError Status
  | [] => .ok .ok
  | .signaled i st :: rest =>
    if i = ExitLoopIndex then .ok .ok
    else
      match st with
      | .inProgress => runLoop l rest
      | .finished => runLoop (l.remove (i - 1)) rest
      | .failed => runLoop (l.remove (i - 1)) rest
  | .abandoned i :: _ => .error (.mutexAbandoned (l.handlers.getD i .quit))
  | .waitError code :: _ => .error (.waitFailed code)
  | .elapsed :: _ => .ok .timedOut

/-- Whether a wait outcome is one of the two escalated, loop-ending error
kinds (an abandoned wait object or a wait-primitive failure). -/
def WaitOutcome.escalates : WaitOutcome → Bool
  | .abandoned _ => true
  | .waitError _ => true
  | .signaled _ _ => false
  | .elapsed => false

/-- Modelled from the spec: `serverMain` (declared in src/unnamed/part_003
line 250; body not in the available sources) records a terminal status on
the `Config` at loop exit: `StatusCreatePipeFailed` when a listening pipe
cannot be created, otherwise the loop's own terminal status, with the two
escalated errors reported as `StatusEventFailed`. -/
def serverExitStatus (pipeCreated : Bool) (l : EventListener)
    (outcomes : List WaitOutcome) : Status :=
  if pipeCreated then
    match runLoop l outcomes with
    | .ok st => st
    | .error _ => .eventFailed
  else .createPipeFailed

/-! ## Theorems -/

/-- C10: For every invocation of a `ClientConnectionHandler`'s step, the
returned status is either `InProgress` (exactly when a continuation is
stored and invoking it yields a successor) or `Failed` (when the
continuation is absent or yields no successor); the step never returns
`Finished`. -/
theorem clientHandlerStep_never_finished {α : Type} (eval : α → Option α)
    (c : Option α) :
    ((clientHandlerStep eval c).1 = .inProgress ∨
     (clientHandlerStep eval c).1 = .failed) ∧
    (clientHandlerStep eval c).1 ≠ .finished ∧
    ((clientHandlerStep eval c).1 = .inProgress ↔
      ∃ f g, c = some f ∧ eval f = some g) := by
  cases c with
  | none => simp [clientHandlerStep]
  | some f =>
    cases h : eval f with
    | none => simp [clientHandlerStep, h]
    | some g => simp [clientHandlerStep, h]

/-- Witness for C10 at a concrete continuation chain. -/
theorem clientHandlerStep_never_finished_witness :
    ((clientHandlerStep (fun n : Nat => some (n + 1)) (some 0)).1 =
        .inProgress ∨
     (clientHandlerStep (fun n : Nat => some (n + 1)) (some 0)).1 =
        .failed) ∧
    (clientHandlerStep (fun n : Nat => some (n + 1)) (some 0)).1 ≠
        .finished ∧
    ((clientHandlerStep (fun n : Nat => some (n + 1)) (some 0)).1 =
        .inProgress ↔
      ∃ f g, (some 0 : Option Nat) = some f ∧ some (f + 1) = some g) :=
  clientHandlerStep_never_finished (fun n : Nat => some (n + 1)) (some 0)

/-- C6: The IO-state tag of an overlapped channel is exactly one of
`Inactive`, `Reading`, `Writing`, `Failed`; every state has at most one
outstanding asynchronous operation; and beginning a new read or write is
permitted exactly from the state with no operation outstanding
(`Inactive`), every other state refusing it. -/
theorem ioState_single_outstanding (s : IOState) :
    (s = .inactive ∨ s = .reading ∨ s = .writing ∨ s = .failed) ∧
    s.outstandingOps ≤ 1 ∧
    IOState.inactive.outstandingOps = 0 ∧
    beginRead s = (if s = .inactive then some .reading else none) ∧
    beginWrite s = (if s = .inactive then some .writing else none) := by
  cases s <;> decide

/-- C2: Dispatching a `BLES` request, with any target, from a connection
state holding no token (no successful `CRED` yet) queues the access-denied
response, leaves the connection without a token, performs no privilege
transfer, and keeps the connection reading. -/
theorem dispatch_bles_without_token (env : OsEnv) (t : Nat) :
    dispatchMessage env { userToken := none } (.bles t) =
      { response := .accessDenied
        state := { userToken := none }
        readAnother := true
        transfer := none } := by
  simp [dispatchMessage]

/-- C7: After the response write completes, a recognized protocol request
(`CRED` with any credentials, `BLES` with any target — including
access-denied outcomes) sends the connection back to `Reading`, while a
structurally malformed request (a header that is neither `CRED` nor
`BLES`, such as an oversized or garbage message answered with
invalid-message) sends it to `Reset`. -/
theorem finishRespond_transition (env : OsEnv) (s : ConnState) :
    (∀ u p, phaseAfterRespond env s (.cred u p) = .reading) ∧
    (∀ t, phaseAfterRespond env s (.bles t) = .reading) ∧
    (∀ tag, phaseAfterRespond env s (.malformed tag) = .resetting) := by
  refine ⟨fun u p => ?_, fun t => ?_, fun tag => ?_⟩
  · by_cases h : env.validCred u p <;>
      simp [phaseAfterRespond, dispatchMessage, finishRespond, h]
  · cases h : s.userToken with
    | none => simp [phaseAfterRespond, dispatchMessage, finishRespond, h]
    | some tok =>
      by_cases h2 : env.transferOk tok t <;>
        simp [phaseAfterRespond, dispatchMessage, finishRespond, h, h2]
  · simp [phaseAfterRespond, dispatchMessage, finishRespond]

/-- C1: Dispatching a `CRED` request: when OS credential validation
succeeds, the connection stores the owned elevated token produced by the
logon and queues the success response; when validation fails, it queues
access-denied and the connection holds no token afterward.  Neither
outcome performs a privilege transfer, and both keep the connection
reading. -/
theorem dispatch_cred_validation (env : OsEnv) (s : ConnState)
    (u p : String) :
    (env.validCred u p = true →
      dispatchMessage env s (.cred u p) =
        { response := .success
          state := { userToken := some (env.logonToken u p) }
          readAnother := true
          transfer := none }) ∧
    (env.validCred u p = false →
      dispatchMessage env s (.cred u p) =
        { response := .accessDenied
          state := { userToken := none }
          readAnother := true
          transfer := none }) := by
  constructor <;> intro h <;> simp [dispatchMessage, h]

/-- Witness for C1: a concrete environment accepting every credential and
one rejecting every credential. -/
theorem dispatch_cred_validation_witness :
    (dispatchMessage ⟨fun _ _ => true, fun _ _ => 7, fun _ _ => true⟩
        { userToken := none } (.cred "alice" "pw") =
      { response := .success
        state := { userToken := some 7 }
        readAnother := true
        transfer := none }) ∧
    (dispatchMessage ⟨fun _ _ => false, fun _ _ => 7, fun _ _ => true⟩
        { userToken := none } (.cred "alice" "pw") =
      { response := .accessDenied
        state := { userToken := none }
        readAnother := true
        transfer := none }) :=
  ⟨(dispatch_cred_validation ⟨fun _ _ => true, fun _ _ => 7, fun _ _ => true⟩
      { userToken := none } "alice" "pw").1 rfl,
   (dispatch_cred_validation ⟨fun _ _ => false, fun _ _ => 7, fun _ _ => true⟩
      { userToken := none } "alice" "pw").2 rfl⟩

/-- Erasing the same index from two lists of equal length yields lists of
equal length. -/
theorem eraseIdx_length_congr {α β : Type} :
    ∀ (n : Nat) (l₁ : List α) (l₂ : List β), l₁.length = l₂.length →
      (l₁.eraseIdx n).length = (l₂.eraseIdx n).length := by
  intro n
  induction n with
  | zero =>
    intro l₁ l₂ h
    cases l₁ <;> cases l₂ <;> simp_all [List.eraseIdx]
  | succ n ih =>
    intro l₁ l₂ h
    cases l₁ with
    | nil => cases l₂ <;> simp_all [List.eraseIdx]
    | cons a as =>
      cases l₂ with
      | nil => simp_all
      | cons b bs =>
        simp only [List.eraseIdx, List.length_cons, Nat.succ.injEq] at h ⊢
        exact ih as bs h

/-- Every reachable listener state has the quit pair at the head of both
parallel vectors, with equal-length tails. -/
theorem reachable_shape (l : EventListener) (h : l.Reachable) :
    ∃ evs hks, l.events = quitEventHandle :: evs ∧
      l.handlers = HandlerKind.quit :: hks ∧ evs.length = hks.length := by
  induction h with
  | init => exact ⟨[], [], rfl, rfl, rfl⟩
  | push ev hk _ ih =>
    obtain ⟨evs, hks, he, hh, hlen⟩ := ih
    refine ⟨evs ++ [ev], hks ++ [hk], ?_, ?_, ?_⟩
    · simp [EventListener.push, he]
    · simp [EventListener.push, hh]
    · simp [hlen]
  | remove i _ ih =>
    obtain ⟨evs, hks, he, hh, hlen⟩ := ih
    refine ⟨evs.eraseIdx i, hks.eraseIdx i, ?_, ?_, ?_⟩
    · simp [EventListener.remove, he, List.eraseIdx]
    · simp [EventListener.remove, hh, List.eraseIdx]
    · exact eraseIdx_length_congr i evs hks hlen

/-- C3: In every listener state reachable from construction by pushes and
removals, the event vector and the handler vector have equal length, index
`ExitLoopIndex = 0` of the handler vector is the quit-signal handler, and
`quitEvent()` still yields the quit event handle — the quit pair is never
removed or displaced. -/
theorem eventListener_parallel_invariant (l : EventListener)
    (h : l.Reachable) :
    l.events.length = l.handlers.length ∧
    l.handlers.head? = some HandlerKind.quit ∧
    l.quitEvent = some quitEventHandle := by
  obtain ⟨evs, hks, he, hh, hlen⟩ := reachable_shape l h
  refine ⟨?_, ?_, ?_⟩
  · simp [he, hh, hlen]
  · simp [hh]
  · simp [EventListener.quitEvent, ExitLoopIndex, he]

/-- Witness for C3 at a concrete reachable state: push one listening
handler, then remove it again. -/
theorem eventListener_parallel_invariant_witness :
    ((EventListener.init.push 5 (.listening 1)).remove 0).events.length =
      ((EventListener.init.push 5 (.listening 1)).remove 0).handlers.length ∧
    ((EventListener.init.push 5 (.listening 1)).remove 0).handlers.head? =
      some HandlerKind.quit ∧
    ((EventListener.init.push 5 (.listening 1)).remove 0).quitEvent =
      some quitEventHandle :=
  eventListener_parallel_invariant _
    (EventListener.Reachable.remove 0
      (EventListener.Reachable.push 5 (.listening 1)
        EventListener.Reachable.init))

/-- `findSignaled` returns the least index at or after `start` whose event
is signaled, provided some signaled index lies within the scanned range. -/
theorem findSignaled_least (p : Nat → Bool) :
    ∀ (fuel start i : Nat), i < fuel → p (start + i) = true →
      ∃ j, findSignaled p start fuel = some j ∧ start ≤ j ∧ j ≤ start + i ∧
        p j = true ∧ ∀ k, start ≤ k → k < j → p k = false := by
  intro fuel
  induction fuel with
  | zero => intro start i hi; omega
  | succ fuel ih =>
    intro start i hi hp
    by_cases hs : p start = true
    · refine ⟨start, by simp [findSignaled, hs], Nat.le_refl _,
        Nat.le_add_right _ _, hs, fun k hk1 hk2 => absurd hk2 (by omega)⟩
    · have hs' : p start = false := by
        cases hps : p start with
        | false => rfl
        | true => exact absurd hps hs
      cases i with
      | zero => exact absurd hp hs
      | succ i =>
        have hp' : p (start + 1 + i) = true := by
          have heq : start + 1 + i = start + (i + 1) := by omega
          rw [heq]; exact hp
        obtain ⟨j, hfind, hj1, hj2, hpj, hmin⟩ :=
          ih (start + 1) i (by omega) hp'
        refine ⟨j, ?_, by omega, by omega, hpj, ?_⟩
        · simp [findSignaled, hs', hfind]
        · intro k hk1 hk2
          rcases Nat.eq_or_lt_of_le hk1 with hk | hk
          · rw [← hk]; exact hs'
          · exact hmin k (by omega) hk2

/-- C4: Whenever some registered event is signaled, `next` dispatches
exactly one handler: the one at the least signaled index (every smaller
index is unsignaled); in particular, if the quit signal at
`ExitLoopIndex = 0` is signaled together with anything else, the quit
handler is the one serviced. -/
theorem next_ascending_priority (l : EventListener) (sig : Nat → Bool)
    (i : Nat) (hi : i < l.events.length)
    (hs : sig (l.events.getD i 0) = true) :
    ∃ j, l.next sig = some j ∧ j ≤ i ∧
      sig (l.events.getD j 0) = true ∧
      (∀ k, k < j → sig (l.events.getD k 0) = false) ∧
      (sig (l.events.getD ExitLoopIndex 0) = true → j = ExitLoopIndex) := by
  obtain ⟨j, hfind, hj0, hji, hpj, hmin⟩ :=
    findSignaled_least (fun k => sig (l.events.getD k 0))
      l.events.length 0 i hi (by simpa using hs)
  refine ⟨j, hfind, by omega, hpj,
    fun k hk => hmin k (Nat.zero_le k) hk, ?_⟩
  intro h0
  rcases Nat.eq_zero_or_pos j with hz | hpos
  · exact hz
  · have hfalse := hmin 0 (Nat.zero_le 0) hpos
    have h0' : sig (l.events.getD 0 0) = true := h0
    rw [hfalse] at h0'
    simp at h0'

/-- Witness for C4: events `[0, 5]` (quit plus one listening pipe), with
only handle 5 signaled. -/
theorem next_ascending_priority_witness :
    ∃ j, (EventListener.init.push 5 (.listening 1)).next
        (fun h => decide (h = 5)) = some j ∧ j ≤ 1 ∧
      (fun h => decide (h = 5))
        ((EventListener.init.push 5 (.listening 1)).events.getD j 0) =
          true ∧
      (∀ k, k < j →
        (fun h => decide (h = 5))
          ((EventListener.init.push 5 (.listening 1)).events.getD k 0) =
            false) ∧
      ((fun h => decide (h = 5))
          ((EventListener.init.push 5
            (.listening 1)).events.getD ExitLoopIndex 0) = true →
        j = ExitLoopIndex) :=
  next_ascending_priority (EventListener.init.push 5 (.listening 1))
    (fun h => decide (h = 5)) 1 (by decide) (by decide)

/-- The base-times-power buffer capacity only grows with more doublings. -/
theorem readCapacity_mono (d k : Nat) :
    readCapacity d ≤ readCapacity (d + k) := by
  unfold readCapacity
  exact Nat.mul_le_mul_left _
    (Nat.pow_le_pow_right (by decide) (Nat.le_add_right d k))

/-- The chunked-read growth loop either accepts the whole message (only
when it fits within the remaining doublings) or fails oversized (whenever
it does not). -/
theorem readGrow_classified (msgLen : Nat) :
    ∀ (fuel d : Nat),
      (readCapacity (d + fuel) < msgLen →
        readGrow msgLen d fuel = .oversized) ∧
      (∀ n, readGrow msgLen d fuel = .accepted n →
        n = msgLen ∧ msgLen ≤ readCapacity (d + fuel)) := by
  intro fuel
  induction fuel with
  | zero =>
    intro d
    constructor
    · intro h
      have hc : ¬ msgLen ≤ readCapacity d := by
        have : readCapacity (d + 0) = readCapacity d := by rw [Nat.add_zero]
        omega
      simp [readGrow, hc]
    · intro n hn
      by_cases hc : msgLen ≤ readCapacity d
      · simp [readGrow, hc] at hn
        have : readCapacity (d + 0) = readCapacity d := by rw [Nat.add_zero]
        omega
      · simp [readGrow, hc] at hn
  | succ fuel ih =>
    intro d
    constructor
    · intro h
      have hmono := readCapacity_mono d (fuel + 1)
      by_cases hc : msgLen ≤ readCapacity d
      · omega
      · have heq : d + 1 + fuel = d + (fuel + 1) := by omega
        simp [readGrow, hc]
        apply (ih (d + 1)).1
        rw [heq]
        exact h
    · intro n hn
      by_cases hc : msgLen ≤ readCapacity d
      · simp [readGrow, hc] at hn
        have hmono := readCapacity_mono d (fuel + 1)
        omega
      · simp [readGrow, hc] at hn
        have := (ih (d + 1)).2 n hn
        have heq : d + 1 + fuel = d + (fuel + 1) := by omega
        rw [heq] at this
        exact this

/-- C5: Any inbound message longer than
`PipeBufferSize * 2 ^ BufferDoublingLimit` (1024 × 2⁴ = 16384 bytes) is
rejected as oversized, and any accepted result carries the entire message
— which therefore fit within the ceiling — so no prefix of an oversized
message is ever accepted as a truncated message. -/
theorem readMessage_oversized_rejected (msgLen : Nat) :
    (PipeBufferSize * 2 ^ BufferDoublingLimit < msgLen →
      readMessage msgLen = .oversized) ∧
    (∀ n, readMessage msgLen = .accepted n →
      n = msgLen ∧ msgLen ≤ PipeBufferSize * 2 ^ BufferDoublingLimit) := by
  have h := readGrow_classified msgLen BufferDoublingLimit 0
  have hcap : readCapacity (0 + BufferDoublingLimit) =
      PipeBufferSize * 2 ^ BufferDoublingLimit := by
    simp [readCapacity]
  constructor
  · intro hlt
    exact h.1 (by rw [hcap]; exact hlt)
  · intro n hn
    have hr := h.2 n hn
    rw [hcap] at hr
    exact hr

/-- Witness for C5: a 16385-byte message is rejected, a 100-byte message
is accepted whole. -/
theorem readMessage_oversized_rejected_witness :
    readMessage 16385 = .oversized ∧
    ((100 : Nat) = 100 ∧
      (100 : Nat) ≤ PipeBufferSize * 2 ^ BufferDoublingLimit) :=
  ⟨(readMessage_oversized_rejected 16385).1 (by decide),
   (readMessage_oversized_rejected 100).2 100 (by decide)⟩

/-- C8: A failure inside one connection's handling (its step returning
`Failed`, or `Finished`) only removes that connection's pair — the loop
continues with the rest of the outcomes; an abandoned wait object ends the
loop with `mutexAbandoned` carrying the offending handler, and a wait-
primitive failure ends it with `waitFailed` carrying the OS error code;
and with no abandoned object and no wait failure in the trace, the loop
never ends in an error. -/
theorem loop_error_escalation (l : EventListener)
    (outs : List WaitOutcome) :
    (∀ i st rest, i ≠ ExitLoopIndex →
      (st = EventStatus.failed ∨ st = EventStatus.finished) →
      runLoop l (.signaled i st :: rest) = runLoop (l.remove (i - 1)) rest) ∧
    (∀ i rest, runLoop l (.abandoned i :: rest) =
      .error (.mutexAbandoned (l.handlers.getD i .quit))) ∧
    (∀ code rest, runLoop l (.waitError code :: rest) =
      .error (.waitFailed code)) ∧
    ((∀ o ∈ outs, o.escalates = false) →
      ∃ st, runLoop l outs = .ok st) := by
  refine ⟨?_, ?_, ?_, ?_⟩
  · intro i st rest hi hst
    rcases hst with h | h <;> subst h <;> simp [runLoop, hi]
  · intro i rest
    simp [runLoop]
  · intro code rest
    simp [runLoop]
  · induction outs generalizing l with
    | nil => intro _; exact ⟨.ok, rfl⟩
    | cons o rest ih =>
      intro hall
      have ho := hall o (List.mem_cons_self o rest)
      have hrest : ∀ x ∈ rest, x.escalates = false :=
        fun x hx => hall x (List.mem_cons_of_mem o hx)
      cases o with
      | signaled i st =>
        by_cases hi : i = ExitLoopIndex
        · exact ⟨.ok, by simp [runLoop, hi]⟩
        · cases st with
          | inProgress =>
            obtain ⟨st, hst⟩ := ih l hrest
            exact ⟨st, by simp [runLoop, hi, hst]⟩
          | finished =>
            obtain ⟨st, hst⟩ := ih (l.remove (i - 1)) hrest
            exact ⟨st, by simp [runLoop, hi, hst]⟩
          | failed =>
            obtain ⟨st, hst⟩ := ih (l.remove (i - 1)) hrest
            exact ⟨st, by simp [runLoop, hi, hst]⟩
      | abandoned i => simp [WaitOutcome.escalates] at ho
      | waitError code => simp [WaitOutcome.escalates] at ho
      | elapsed => exact ⟨.timedOut, rfl⟩

/-- Witness for C8: one connection handler fails mid-loop and the loop
survives to its bounded-wait timeout; abandoned and wait-failed outcomes
escalate with their payloads. -/
theorem loop_error_escalation_witness :
    (runLoop EventListener.init [.signaled 1 .failed, .elapsed] =
      runLoop (EventListener.init.remove 0) [.elapsed]) ∧
    (runLoop EventListener.init [.abandoned 0] =
      .error (.mutexAbandoned
        (EventListener.init.handlers.getD 0 .quit))) ∧
    (runLoop EventListener.init [.waitError 5] =
      .error (.waitFailed 5)) ∧
    (∃ st, runLoop EventListener.init [.signaled 1 .failed, .elapsed] =
      .ok st) :=
  ⟨(loop_error_escalation EventListener.init []).1 1 .failed [.elapsed]
      (by decide) (Or.inl rfl),
   (loop_error_escalation EventListener.init []).2.1 0 [],
   (loop_error_escalation EventListener.init []).2.2.1 5 [],
   (loop_error_escalation EventListener.init
      [.signaled 1 .failed, .elapsed]).2.2.2 (by decide)⟩

/-- A loop that exits without an escalated error reports either the
quit-triggered ok status or the timed-out status. -/
theorem runLoop_ok_values :
    ∀ (outs : List WaitOutcome) (l : EventListener) (st : Status),
      runLoop l outs = .ok st → st = .ok ∨ st = .timedOut := by
  intro outs
  induction outs with
  | nil =>
    intro l st h
    have hred : runLoop l [] = Except.ok Status.ok := rfl
    rw [hred] at h
    injection h with h2
    exact Or.inl h2.symm
  | cons o rest ih =>
    intro l st h
    cases o with
    | signaled i st' =>
      by_cases hi : i = ExitLoopIndex
      · have hred : runLoop l (.signaled i st' :: rest) =
            Except.ok Status.ok := by simp [runLoop, hi]
        rw [hred] at h
        injection h with h2
        exact Or.inl h2.symm
      · cases st' with
        | inProgress =>
          have hred : runLoop l (.signaled i .inProgress :: rest) =
              runLoop l rest := by simp [runLoop, hi]
          rw [hred] at h
          exact ih l st h
        | finished =>
          have hred : runLoop l (.signaled i .finished :: rest) =
              runLoop (l.remove (i - 1)) rest := by simp [runLoop, hi]
          rw [hred] at h
          exact ih (l.remove (i - 1)) st h
        | failed =>
          have hred : runLoop l (.signaled i .failed :: rest) =
              runLoop (l.remove (i - 1)) rest := by simp [runLoop, hi]
          rw [hred] at h
          exact ih (l.remove (i - 1)) st h
    | abandoned i => simp [runLoop] at h
    | waitError code => simp [runLoop] at h
    | elapsed =>
      have hred : runLoop l (.elapsed :: rest) =
          Except.ok Status.timedOut := rfl
      rw [hred] at h
      injection h with h2
      exact Or.inr h2.symm

/-- C9: The terminal status recorded at loop exit is always one of the
four reportable outcomes — ok, pipe-create-failed, timed-out,
event-failed — never the unset placeholder, and those four are pairwise
distinct, so an elapsed bounded wait is distinguishable from quit-
triggered shutdown and from both failures. -/
theorem exit_status_four_outcomes (pipeCreated : Bool)
    (l : EventListener) (outs : List WaitOutcome) :
    (serverExitStatus pipeCreated l outs = .ok ∨
     serverExitStatus pipeCreated l outs = .createPipeFailed ∨
     serverExitStatus pipeCreated l outs = .timedOut ∨
     serverExitStatus pipeCreated l outs = .eventFailed) ∧
    serverExitStatus pipeCreated l outs ≠ .unset ∧
    Status.timedOut ≠ Status.ok ∧
    Status.timedOut ≠ Status.createPipeFailed ∧
    Status.timedOut ≠ Status.eventFailed ∧
    Status.ok ≠ Status.createPipeFailed ∧
    Status.ok ≠ Status.eventFailed ∧
    Status.createPipeFailed ≠ Status.eventFailed := by
  have hmain : serverExitStatus pipeCreated l outs = .ok ∨
      serverExitStatus pipeCreated l outs = .createPipeFailed ∨
      serverExitStatus pipeCreated l outs = .timedOut ∨
      serverExitStatus pipeCreated l outs = .eventFailed := by
    cases pipeCreated with
    | false =>
      right; left
      simp [serverExitStatus]
    | true =>
      cases hr : runLoop l outs with
      | error e =>
        right; right; right
        simp [serverExitStatus, hr]
      | ok st =>
        rcases runLoop_ok_values outs l st hr with h | h <;> subst h
        · left; simp [serverExitStatus, hr]
        · right; right; left; simp [serverExitStatus, hr]
  refine ⟨hmain, ?_, by decide, by decide, by decide, by decide,
    by decide, by decide⟩
  rcases hmain with h | h | h | h <;> rw [h] <;> decide

/-- Witness for C9 at a concrete run: the pipe is created and the loop
times out. -/
theorem exit_status_four_outcomes_witness :
    (serverExitStatus true EventListener.init [.elapsed] = .ok ∨
     serverExitStatus true EventListener.init [.elapsed] =
        .createPipeFailed ∨
     serverExitStatus true EventListener.init [.elapsed] = .timedOut ∨
     serverExitStatus true EventListener.init [.elapsed] =
        .eventFailed) ∧
    serverExitStatus true EventListener.init [.elapsed] ≠ .unset ∧
    Status.timedOut ≠ Status.ok ∧
    Status.timedOut ≠ Status.createPipeFailed ∧
    Status.timedOut ≠ Status.eventFailed ∧
    Status.ok ≠ Status.createPipeFailed ∧
    Status.ok ≠ Status.eventFailed ∧
    Status.createPipeFailed ≠ Status.eventFailed :=
  exit_status_four_outcomes true EventListener.init [.elapsed]

end Wsudo
